import Mathlib

/-!
Verification of the Y2K digital-camera effect pipeline
(`applyY2KCameraEffect` and its stage functions).

The pipeline operates on 8-bit RGBA raster images read into floating-point
working buffers.  We model the working values as exact rationals, raster
images as lists of byte values (`Fin 256`, since the imaging substrate stores
8-bit RGBA), and the external capabilities (Skia blur, resampling surface
draws, the JPEG codec, text compositing, `Math.sqrt`/`Math.pow`, and the
ambient random stream) as an explicit `Oracles` record of abstract functions:
the pipeline's own arithmetic is embedded exactly, while the collaborators'
pixel output is left abstract exactly where the source delegates to them.
-/

namespace Y2K

/-- JavaScript `Math.round`: round half away from zero toward positive
infinity, i.e. `⌊x + 1/2⌋`. -/
def jsRound (x : ℚ) : ℤ := ⌊x + 1/2⌋

/-- The source's `clamp(val, min, max)` helper:
`val < min ? min : val > max ? max : val`. -/
def clamp (val lo hi : ℚ) : ℚ := if val < lo then lo else if val > hi then hi else val

/-- Integer variant of the same clamp, used for pixel coordinates. -/
def clampZ (val lo hi : ℤ) : ℤ := if val < lo then lo else if val > hi then hi else val

/-- A byte as stored in a raster image: the imaging substrate keeps 8-bit
RGBA channels. -/
abbrev Byte := Fin 256

/-- Conversion performed by `pixelsToImage` on each channel:
`Math.max(0, Math.min(255, Math.round(v)))`. -/
def byteOfRat (v : ℚ) : Byte :=
  ⟨(max 0 (min 255 (jsRound v))).toNat, by omega⟩

/-- A raster image handle (`SkImage`): width, height and the underlying
8-bit RGBA bytes, row-major, 4 channels per pixel. -/
structure Image where
  width : ℕ
  height : ℕ
  data : List Byte
  deriving DecidableEq, Repr

/-- External capabilities the pipeline delegates to, left abstract: Gaussian
blur output, surface resampling output, date-text compositing output, the
JPEG codec round trip, `Math.sqrt`, `Math.pow`, and the ambient random
streams consumed by `randomNormal` and the date generator. -/
structure Oracles where
  blurData : ℚ → Image → List Byte
  resampleData : Image → ℕ → ℕ → List Byte
  stampData : Image → String → List Byte
  encodeBytes : Image → ℤ → Option (List Byte)
  decodeImage : List Byte → Option Image
  sqrtO : ℚ → ℚ
  powO : ℚ → ℚ → ℚ
  noise : ℕ → ℚ
  rand : ℕ → ℚ

/-- `imageToPixels`: read the raw RGBA bytes of an image into a float
working buffer (each byte becomes its numeric value). -/
def imageToPixels (image : Image) : List ℚ :=
  image.data.map (fun b => (b.val : ℚ))

/-- `pixelsToImage`: convert a float RGBA buffer back to an image by
rounding and clamping every channel to a byte. -/
def pixelsToImage (data : List ℚ) (width height : ℕ) : Image :=
  ⟨width, height, data.map byteOfRat⟩

/-- `luminance`: `0.299*R + 0.587*G + 0.114*B` of pixel `p` of a flat RGBA
buffer (`p = y*w + x`, base index `p*4`). -/
def luminanceAt (data : List ℚ) (p : ℕ) : ℚ :=
  0.299 * data.getD (4*p) 0 + 0.587 * data.getD (4*p+1) 0 + 0.114 * data.getD (4*p+2) 0

/-- `pilRadiusToSigma`: `radius * 0.425`. -/
def pilRadiusToSigma (radius : ℚ) : ℚ := radius * 0.425

/-- `applyGaussianBlur`: no-op for `sigma ≤ 0`, otherwise draws onto a
fresh surface of the same dimensions, with the blurred bytes supplied by
the Skia blur capability. -/
def applyGaussianBlur (O : Oracles) (sigma : ℚ) (image : Image) : Image :=
  if sigma ≤ 0 then image else ⟨image.width, image.height, O.blurData sigma image⟩

/-- `drawImageToSurface`: draws an image into a fresh `width × height`
surface and snapshots it; the resampled bytes come from the surface
capability. -/
def drawImageToSurface (O : Oracles) (image : Image) (width height : ℕ) : Image :=
  ⟨width, height, O.resampleData image width height⟩

/-- In-order map with the element index, mirroring the source's
`for` loops that rewrite buffer entries index by index. -/
def mapIdxGo (f : ℕ → ℚ → ℚ) : ℕ → List ℚ → List ℚ
  | _, [] => []
  | k, a :: t => f k a :: mapIdxGo f (k+1) t

/-- Top-level in-order indexed map starting at index `0`. -/
def mapIdxQ (f : ℕ → ℚ → ℚ) (l : List ℚ) : List ℚ := mapIdxGo f 0 l

theorem mapIdxGo_length (f : ℕ → ℚ → ℚ) : ∀ (k : ℕ) (l : List ℚ),
    (mapIdxGo f k l).length = l.length := by
  intro k l
  induction l generalizing k with
  | nil => rfl
  | cons a t ih => simp [mapIdxGo, ih]

theorem mapIdxQ_length (f : ℕ → ℚ → ℚ) (l : List ℚ) :
    (mapIdxQ f l).length = l.length := mapIdxGo_length f 0 l

theorem mapIdxGo_getD (f : ℕ → ℚ → ℚ) : ∀ (l : List ℚ) (k j : ℕ),
    (mapIdxGo f k l).getD j 0 = if j < l.length then f (k + j) (l.getD j 0) else 0 := by
  intro l
  induction l with
  | nil => intro k j; simp [mapIdxGo]
  | cons a t ih =>
    intro k j
    cases j with
    | zero => simp [mapIdxGo]
    | succ j =>
      simp only [mapIdxGo, List.getD_cons_succ, ih, List.length_cons]
      have harith : k + 1 + j = k + (j + 1) := by omega
      by_cases hj : j < t.length
      · rw [if_pos hj, if_pos (by omega), harith]
      · rw [if_neg hj, if_neg (by omega)]

theorem mapIdxQ_getD (f : ℕ → ℚ → ℚ) (l : List ℚ) (j : ℕ) :
    (mapIdxQ f l).getD j 0 = if j < l.length then f j (l.getD j 0) else 0 := by
  have h := mapIdxGo_getD f l 0 j
  simpa [mapIdxQ] using h

theorem mapIdxGo_mem (f : ℕ → ℚ → ℚ) : ∀ (l : List ℚ) (k : ℕ) (v : ℚ),
    v ∈ mapIdxGo f k l → ∃ j, j < l.length ∧ v = f (k + j) (l.getD j 0) := by
  intro l
  induction l with
  | nil => intro k v hv; simp [mapIdxGo] at hv
  | cons a t ih =>
    intro k v hv
    simp only [mapIdxGo, List.mem_cons] at hv
    rcases hv with hv | hv
    · exact ⟨0, by simp, by simpa using hv⟩
    · obtain ⟨j, hj, hvj⟩ := ih (k+1) v hv
      exact ⟨j + 1, by simpa using hj, by simpa [Nat.add_assoc, Nat.add_comm 1 j] using hvj⟩

theorem mapIdxQ_mem (f : ℕ → ℚ → ℚ) (l : List ℚ) (v : ℚ)
    (hv : v ∈ mapIdxQ f l) : ∃ j, j < l.length ∧ v = f j (l.getD j 0) := by
  obtain ⟨j, hj, hvj⟩ := mapIdxGo_mem f l 0 v hv
  exact ⟨j, hj, by simpa using hvj⟩

/-- All channel values of a working buffer lie in `[0, 255]`. -/
def InRange (l : List ℚ) : Prop := ∀ v ∈ l, 0 ≤ v ∧ v ≤ 255

theorem InRange.getD {l : List ℚ} (h : InRange l) (k : ℕ) :
    0 ≤ l.getD k 0 ∧ l.getD k 0 ≤ 255 := by
  by_cases hk : k < l.length
  · rw [List.getD_eq_getElem l 0 hk]
    exact h _ (List.getElem_mem hk)
  · rw [List.getD_eq_default l 0 (by omega)]
    norm_num

theorem clamp_mem (v lo hi : ℚ) (hlohi : lo ≤ hi) :
    lo ≤ clamp v lo hi ∧ clamp v lo hi ≤ hi := by
  unfold clamp
  split <;> [skip; split] <;> constructor <;> linarith

theorem clamp_mono (lo hi a b : ℚ) (hlohi : lo ≤ hi) (hab : a ≤ b) :
    clamp a lo hi ≤ clamp b lo hi := by
  unfold clamp
  split <;> [skip; split] <;> split <;> [skip; split; skip; split; skip; split] <;> linarith

theorem jsRound_mono {a b : ℚ} (hab : a ≤ b) : jsRound a ≤ jsRound b :=
  Int.floor_le_floor (by linarith)

/-- The numeric value of a converted byte. -/
def byteQ (v : ℚ) : ℚ := ((byteOfRat v).val : ℚ)

theorem byteQ_mono {a b : ℚ} (hab : a ≤ b) : byteQ a ≤ byteQ b := by
  unfold byteQ byteOfRat
  have h := jsRound_mono hab
  have : (max 0 (min 255 (jsRound a))).toNat ≤ (max 0 (min 255 (jsRound b))).toNat := by omega
  exact_mod_cast this

/-- Evaluates a byte conversion once the rounded value is known to lie in
`[0, 255]`. -/
theorem byteQ_evalN (v : Rat) (n : Nat) (hz : jsRound v = (n : Int)) (h255 : n ≤ 255) :
    byteQ v = (n : Rat) := by
  show ((max 0 (min 255 (jsRound v))).toNat : Rat) = _
  rw [hz]
  congr 1
  omega

theorem imageToPixels_inRange (image : Image) : InRange (imageToPixels image) := by
  intro v hv
  unfold imageToPixels at hv
  obtain ⟨b, _, rfl⟩ := List.mem_map.mp hv
  have := b.isLt
  constructor
  · positivity
  · exact_mod_cast Nat.lt_succ_iff.mp this

theorem imageToPixels_getD_mem (image : Image) (k : ℕ) :
    0 ≤ (imageToPixels image).getD k 0 ∧ (imageToPixels image).getD k 0 ≤ 255 :=
  (imageToPixels_inRange image).getD k

/-! ### Effect stages -/

/-- Step 1 (`reduceResolution`): if the pixel count is at most 2,000,000
return the image unchanged; otherwise resample to
`round(dim * (1 − (1 − sqrt(target/current)) * intensity))`. -/
def reduceResolution (O : Oracles) (image : Image) (intensity : ℚ) : Image :=
  let w := image.width
  let h := image.height
  let targetPixels : ℕ := 2000000
  let currentPixels := w * h
  if currentPixels ≤ targetPixels then image else
  let scale := O.sqrtO ((targetPixels : ℚ) / (currentPixels : ℚ))
  let blended := 1 - (1 - scale) * intensity
  let newW := (jsRound ((w : ℚ) * blended)).toNat
  let newH := (jsRound ((h : ℚ) * blended)).toNat
  drawImageToSurface O image newW newH

/-- Step 2 (`applyCoolCast`): multiply R by `1 − 0.06·i`, G by `1 + 0.02·i`,
B by `1 + 0.08·i`, clamping each to `[0, 255]`; alpha untouched.  The loop
covers the pixels `p < w*h`; each index is read once and written once, so it
is an indexed map over the buffer. -/
def applyCoolCast (data : List ℚ) (w h : ℕ) (intensity : ℚ) : List ℚ :=
  let rMul := 1.0 - 0.06 * intensity
  let gMul := 1.0 + 0.02 * intensity
  let bMul := 1.0 + 0.08 * intensity
  mapIdxQ (fun k v =>
    if k / 4 < w * h then
      if k % 4 = 0 then clamp (v * rMul) 0 255
      else if k % 4 = 1 then clamp (v * gMul) 0 255
      else if k % 4 = 2 then clamp (v * bMul) 0 255
      else v
    else v) data

/-- Step 3a (`adjustSaturation`): per pixel, blend each colour channel away
from the pixel's luminance by `factor` and clamp.  The source reads `r,g,b`
into locals before writing, so every write depends only on the pre-pass
buffer. -/
def adjustSaturation (data : List ℚ) (w h : ℕ) (factor : ℚ) : List ℚ :=
  mapIdxQ (fun k v =>
    if k / 4 < w * h ∧ k % 4 < 3 then
      let lum := luminanceAt data (k / 4)
      clamp (lum + (v - lum) * factor) 0 255
    else v) data

/-- Step 3b (`adjustVibrance`): no-op when the factor is exactly `1`;
otherwise boost saturation in normalized channel space, weighted by
`(1 − sat)^1.5` so less-saturated pixels move more. -/
def adjustVibrance (powO : ℚ → ℚ → ℚ) (data : List ℚ) (w h : ℕ)
    (vibranceFactor : ℚ) : List ℚ :=
  if vibranceFactor = 1.0 then data else
  mapIdxQ (fun k v =>
    if k / 4 < w * h ∧ k % 4 < 3 then
      let p := k / 4
      let r := data.getD (4*p) 0 / 255
      let g := data.getD (4*p+1) 0 / 255
      let b := data.getD (4*p+2) 0 / 255
      let maxC := max r (max g b)
      let minC := min r (min g b)
      let sat := if maxC = 0 then 0 else (maxC - minC) / maxC
      let curve := powO (1.0 - sat) 1.5
      let adjustment := (vibranceFactor - 1.0) * curve
      let lum := 0.299 * r + 0.587 * g + 0.114 * b
      let newFactor := 1.0 + adjustment
      clamp ((lum + (v / 255 - lum) * newFactor) * 255) 0 255
    else v) data

/-- Step 4 (`reduceDynamicRange`): per non-alpha channel, lift by `8·i`,
compress by `0.95 − 0.05·i`, reduce contrast around 128 by
`0.9 + 0.1·(1−i)`, clamp.  The loop runs over raw indices `< w*h*4`. -/
def reduceDynamicRange (data : List ℚ) (w h : ℕ) (intensity : ℚ) : List ℚ :=
  let blackLift := 8 * intensity
  let highlightCompress := 0.95 - 0.05 * intensity
  let contrastReduction := 0.9 + 0.1 * (1 - intensity)
  let mid : ℚ := 128
  mapIdxQ (fun k v =>
    if k < w * h * 4 ∧ k % 4 ≠ 3 then
      clamp (((v + blackLift) * highlightCompress - mid) * contrastReduction + mid) 0 255
    else v) data

/-- Step 4b (`reduceLocalContrast`), buffer part: blur the luminance plane
(radius `⌊windowSize/2⌋` converted to sigma), then scale each pixel's colour
channels by `clamp(lumReduced/lum, 0, 2)` (ratio `1` when `lum = 0`). -/
def reduceLocalContrastBuf (O : Oracles) (image : Image) (amount : ℚ)
    (windowSize : ℕ) : List ℚ :=
  let data := imageToPixels image
  let w := image.width
  let h := image.height
  let lumRGBA := (List.range (w * h * 4)).map
    (fun k => if k % 4 = 3 then 255 else luminanceAt data (k / 4))
  let lumImage := pixelsToImage lumRGBA w h
  let blurredLumImage := applyGaussianBlur O (pilRadiusToSigma ((windowSize / 2 : ℕ) : ℚ)) lumImage
  let blurredPixels := imageToPixels blurredLumImage
  mapIdxQ (fun k v =>
    if k / 4 < w * h ∧ k % 4 < 3 then
      let p := k / 4
      let lum := luminanceAt data p
      let localMean := blurredPixels.getD (4*p) 0
      let lumReduced := localMean + (lum - localMean) * (1 - amount)
      let ratio0 := if lum ≠ 0 then clamp (lumReduced / lum) 0 2 else 1
      clamp (v * ratio0) 0 255
    else v) data

/-- Step 4b (`reduceLocalContrast`), full stage: buffer math followed by
`pixelsToImage`. -/
def reduceLocalContrast (O : Oracles) (image : Image) (amount : ℚ)
    (windowSize : ℕ) : Image :=
  pixelsToImage (reduceLocalContrastBuf O image amount windowSize) image.width image.height

/-- Parameters of the bloom stage (`BloomOptions` in the source). -/
structure BloomOptions where
  intensity : ℚ
  highlightThreshold : ℚ
  bloomStrength : ℚ
  bloomRadius : ℚ
  shadowCrushStrength : ℚ
  shadowCrushRadius : ℚ
  deriving DecidableEq, Repr

/-- Bloom: per-pixel highlight mask
`(clamp((lum − threshold)/(255 − threshold), 0, 1))^0.7`. -/
def bloomHmF (O : Oracles) (image : Image) (opts : BloomOptions) (p : ℕ) : ℚ :=
  let data := imageToPixels image
  let lum := luminanceAt data p
  O.powO (clamp ((lum - opts.highlightThreshold) / (255 - opts.highlightThreshold)) 0 1) 0.7

/-- Bloom: the bloom source layer, original colour channels multiplied by
the highlight mask, alpha forced opaque. -/
def bloomPixelsL (O : Oracles) (image : Image) (opts : BloomOptions) : List ℚ :=
  let data := imageToPixels image
  let n := image.width * image.height
  (List.range (n * 4)).map
    (fun k => if k % 4 = 3 then 255 else data.getD k 0 * bloomHmF O image opts (k / 4))

/-- Bloom: the bloom layer blurred at `baseBloomRadius * bloomRadius * mult`
(sigma-converted), read back into a working buffer. -/
def bloomBlurred (O : Oracles) (image : Image) (opts : BloomOptions) (mult : ℚ) : List ℚ :=
  let baseBloomRadius : ℤ := max 15 ⌊40 * opts.intensity⌋
  let bloomImage := pixelsToImage (bloomPixelsL O image opts) image.width image.height
  imageToPixels (applyGaussianBlur O
    (pilRadiusToSigma ((baseBloomRadius : ℚ) * opts.bloomRadius * mult)) bloomImage)

/-- Bloom: combined bloom layer `0.4·b1 + 0.35·b2 + 0.25·b3` (blur radii
scaled by 1, 2.5 and 4). -/
def bloomCbF (O : Oracles) (image : Image) (opts : BloomOptions) (k : ℕ) : ℚ :=
  (bloomBlurred O image opts 1).getD k 0 * 0.4
    + (bloomBlurred O image opts 2.5).getD k 0 * 0.35
    + (bloomBlurred O image opts 4).getD k 0 * 0.25

/-- Bloom: the highlight mask blurred at `baseCrushRadius * shadowCrushRadius
* mult`, read back. -/
def bloomCrushBlurred (O : Oracles) (image : Image) (opts : BloomOptions) (mult : ℚ) : List ℚ :=
  let n := image.width * image.height
  let baseCrushRadius : ℤ := max 10 ⌊30 * opts.intensity⌋
  let hmRGBA := (List.range (n * 4)).map
    (fun k => if k % 4 = 3 then 255 else bloomHmF O image opts (k / 4) * 255)
  let hmImage := pixelsToImage hmRGBA image.width image.height
  imageToPixels (applyGaussianBlur O
    (pilRadiusToSigma ((baseCrushRadius : ℚ) * opts.shadowCrushRadius * mult)) hmImage)

/-- Bloom: crush-influence map `0.6·c1 + 0.4·c2` from the two blurred
highlight masks (R channel, normalized). -/
def bloomCiF (O : Oracles) (image : Image) (opts : BloomOptions) (p : ℕ) : ℚ :=
  (bloomCrushBlurred O image opts 1).getD (4*p) 0 / 255 * 0.6
    + (bloomCrushBlurred O image opts 2).getD (4*p) 0 / 255 * 0.4

/-- Bloom: global mean of the highlight mask. -/
def bloomHighlightAmount (O : Oracles) (image : Image) (opts : BloomOptions) : ℚ :=
  let n := image.width * image.height
  (∑ p ∈ Finset.range n, bloomHmF O image opts p) / (n : ℚ)

/-- Bloom: `shadowCrushFactor = 1 + 0.15·i·scs·(1 + 2·highlightAmount)`. -/
def bloomScf (O : Oracles) (image : Image) (opts : BloomOptions) : ℚ :=
  1.0 + 0.15 * opts.intensity * opts.shadowCrushStrength
    * (1 + bloomHighlightAmount O image opts * 2)

/-- Bloom: the shadow-crushed buffer — colour channels scaled by
`1 − crushAmount` then floored at `blackLift`, alpha forced opaque. -/
def bloomAdjF (O : Oracles) (image : Image) (opts : BloomOptions) (k : ℕ) : ℚ :=
  if k % 4 = 3 then 255 else
  let data := imageToPixels image
  let p := k / 4
  let lum := luminanceAt data p
  let shadowMask := O.powO (clamp (1 - lum / 128) 0 1) 1.5
  let crushAmount := shadowMask * bloomCiF O image opts p * 0.3 * opts.intensity
    * opts.shadowCrushStrength * bloomScf O image opts
  let blackLift := 5 * opts.intensity * (2 - opts.shadowCrushStrength)
  max (data.getD k 0 * (1 - crushAmount)) blackLift

/-- Bloom: final compositing of one channel — screen blend with the combined
bloom scaled by `0.5·i·bloomStrength`, additive term `0.25·i·bloomStrength`,
warm colour shift on R and B, clamp. -/
def bloomResultF (O : Oracles) (image : Image) (opts : BloomOptions) (k : ℕ) : ℚ :=
  if k % 4 = 3 then 255 else
  let screenAmount := 0.5 * opts.intensity * opts.bloomStrength
  let additiveAmount := 0.25 * opts.intensity * opts.bloomStrength
  let p := k / 4
  let orig := bloomAdjF O image opts k / 255
  let bloom := bloomCbF O image opts k / 255
  let screened := 1 - (1 - orig) * (1 - bloom * screenAmount)
  let bloomLum := (bloomCbF O image opts (4*p) + bloomCbF O image opts (4*p+1)
    + bloomCbF O image opts (4*p+2)) / 765
  let bmask := clamp bloomLum 0 1
  let shiftV := if k % 4 = 0 then bmask * 8 * opts.intensity * opts.bloomStrength
    else if k % 4 = 2 then bmask * 4 * opts.intensity * opts.bloomStrength
    else 0
  clamp (screened * 255 + bloomCbF O image opts k * additiveAmount + shiftV) 0 255

/-- Step 5 (`applyBloomEffect`), buffer part: the result array has the input
buffer's length, alpha entries prefilled with 255, pixels `p < w*h`
composited by `bloomResultF`, anything beyond left at 0. -/
def applyBloomEffectBuf (O : Oracles) (image : Image) (opts : BloomOptions) : List ℚ :=
  let n := image.width * image.height
  (List.range (imageToPixels image).length).map
    (fun k => if k / 4 < n then bloomResultF O image opts k
      else if k % 4 = 3 then 255 else 0)

/-- Step 5 (`applyBloomEffect`), full stage. -/
def applyBloomEffect (O : Oracles) (image : Image) (opts : BloomOptions) : Image :=
  pixelsToImage (applyBloomEffectBuf O image opts) image.width image.height

/-- Step 5b (`addChromaticAberration`): integer shift `⌊2·i⌋`; no-op when
below 1; otherwise blend R with the sample at `(x−shift, y−shift)` and B
with the sample at `(x+shift, y+shift)`, each skipped when out of bounds.
All reads come from the pre-pass copy `orig` of the buffer. -/
def addChromaticAberration (data : List ℚ) (w h : ℕ) (intensity : ℚ) : List ℚ :=
  if ⌊2 * intensity⌋ < 1 then data else
  let s := (⌊2 * intensity⌋).toNat
  let blendOrig := 1 - 0.5 * intensity
  let blendShift := 0.5 * intensity
  mapIdxQ (fun k v =>
    if k / 4 < w * h then
      let p := k / 4
      let x := p % w
      let y := p / w
      if k % 4 = 0 then
        if s ≤ y ∧ s ≤ x then
          clamp (v * blendOrig + data.getD (((y-s) * w + (x-s)) * 4) 0 * blendShift) 0 255
        else v
      else if k % 4 = 2 then
        if y + s < h ∧ x + s < w then
          clamp (v * blendOrig + data.getD (((y+s) * w + (x+s)) * 4 + 2) 0 * blendShift) 0 255
        else v
      else v
    else v) data

/-- Step 6 (`applyOversharpening`), buffer part: unsharp mask against a blur
at fixed radius 1.5, amount `1.5 * intensity`, clamp; alpha skipped. -/
def applyOversharpeningBuf (O : Oracles) (image : Image) (intensity : ℚ) : List ℚ :=
  let blurred := applyGaussianBlur O (pilRadiusToSigma 1.5) image
  let blurPx := imageToPixels blurred
  let sharpeningAmount := 1.5 * intensity
  mapIdxQ (fun k v =>
    if k % 4 = 3 then v
    else clamp (v + (v - blurPx.getD k 0) * sharpeningAmount) 0 255)
    (imageToPixels image)

/-- Step 6 (`applyOversharpening`), full stage. -/
def applyOversharpening (O : Oracles) (image : Image) (intensity : ℚ) : Image :=
  pixelsToImage (applyOversharpeningBuf O image intensity) image.width image.height

/-- Step 7 (`addDigitalNoise`): add a `randomNormal()` sample (drawn from
the random stream, three per pixel) scaled by `12·i·(0.5 + shadowMask·0.5)`
to each colour channel, clamp; the pixel's luminance is read before its
channels are written. -/
def addDigitalNoise (noise : ℕ → ℚ) (data : List ℚ) (w h : ℕ) (intensity : ℚ) : List ℚ :=
  let noiseStrength := 12 * intensity
  mapIdxQ (fun k v =>
    if k / 4 < w * h ∧ k % 4 < 3 then
      let p := k / 4
      let lum := luminanceAt data p
      let shadowMask := 1 - lum / 255
      let weighted := noise (3*p + k % 4) * noiseStrength * (0.5 + shadowMask * 0.5)
      clamp (v + weighted) 0 255
    else v) data

/-- Step 8 (`applyJpegArtifacts`): encode at `round(70 − 30·i)` through the
codec capability and decode back; on either failure return the pre-encode
image unchanged. -/
def applyJpegArtifacts (O : Oracles) (image : Image) (intensity : ℚ) : Image :=
  let quality := jsRound (70 - 30 * intensity)
  match O.encodeBytes image quality with
  | none => image
  | some encoded =>
    match O.decodeImage encoded with
    | none => image
    | some decoded => decoded

/-- Step 9 (`applyBarrelDistortion`): fresh result buffer with all alpha
entries set to 255, colour channels sampled (nearest-neighbour) at the
barrel-distorted coordinate clamped to the image bounds; entries beyond the
pixel area stay 0. -/
def applyBarrelDistortion (sqrtO : ℚ → ℚ) (data : List ℚ) (w h : ℕ)
    (intensity : ℚ) : List ℚ :=
  let kk := 0.1 * intensity
  let cx := (w : ℚ) / 2
  let cy := (h : ℚ) / 2
  mapIdxQ (fun k _ =>
    if k % 4 = 3 then 255
    else if k / 4 < w * h then
      let p := k / 4
      let x := p % w
      let y := p / w
      let xNorm := ((x : ℚ) - cx) / cx
      let yNorm := ((y : ℚ) - cy) / cy
      let r := sqrtO (xNorm * xNorm + yNorm * yNorm)
      let rDistorted := r * (1 + kk * r * r)
      let scale := if r = 0 then 1 else rDistorted / r
      let srcX := clampZ (jsRound (xNorm * scale * cx + cx)) 0 ((w : ℤ) - 1)
      let srcY := clampZ (jsRound (yNorm * scale * cy + cy)) 0 ((h : ℤ) - 1)
      data.getD ((srcY * (w : ℤ) + srcX) * 4 + (k % 4 : ℤ)).toNat 0
    else 0) data

/-- Zero-padding to two digits, as `String(n).padStart(2, "0")` behaves for
the generated 1–2 digit month/day values. -/
def pad2 (n : ℕ) : String := if n < 10 then "0" ++ Nat.repr n else Nat.repr n

/-- The date template `` `${month}/${day}/${year}` `` with the month and day
zero-padded. -/
def mkDateString (month day year : ℕ) : String :=
  pad2 month ++ "/" ++ pad2 day ++ "/" ++ Nat.repr year

/-- The date generated by `addDateStamp` when no custom text is supplied:
`year = 2001 + ⌊r1·6⌋`, `month = 1 + ⌊r2·12⌋`, `day = 1 + ⌊r3·28⌋` from
three ambient `Math.random()` draws in `[0, 1)`. -/
def genDateText (r1 r2 r3 : ℚ) : String :=
  mkDateString (1 + (⌊r2 * 12⌋).toNat) (1 + (⌊r3 * 28⌋).toNat) (2001 + (⌊r1 * 6⌋).toNat)

/-- Step 10 (`addDateStamp`): draw the original image plus the two-layer
date text onto a fresh surface of the same dimensions; the composited bytes
come from the text-rasterization capability. -/
def addDateStamp (O : Oracles) (image : Image) (customText : Option String) : Image :=
  let text := customText.getD (genDateText (O.rand 0) (O.rand 1) (O.rand 2))
  ⟨image.width, image.height, O.stampData image text⟩

/-- `Y2KOptions`: all fields optional, mirroring the destructuring defaults
`intensity = 1.0`, `addDateStamp = true`, `outputQuality = 85`. -/
structure Y2KOptions where
  intensity : Option ℚ
  addDateStamp : Option Bool
  dateStampText : Option String
  outputQuality : Option ℤ

/-- The full pipeline `applyY2KCameraEffect`: reduce resolution (called with
`intensity * 0.02`), cool cast, saturation and vibrance (factor
`intensity * 1.3`), dynamic range, local contrast, bloom (derived
parameters), chromatic aberration, oversharpening (argument
`intensity * 1.3`), digital noise, barrel distortion, JPEG artifacts,
resize back to the original dimensions, optional date stamp. -/
def applyY2KCameraEffect (O : Oracles) (sourceImage : Image) (options : Y2KOptions) : Image :=
  let intensity := options.intensity.getD 1.0
  let addStamp := options.addDateStamp.getD true
  let originalW := sourceImage.width
  let originalH := sourceImage.height
  let image1 := reduceResolution O sourceImage (intensity * 0.02)
  let w := image1.width
  let h := image1.height
  let d1 := applyCoolCast (imageToPixels image1) w h intensity
  let d2 := adjustSaturation d1 w h (intensity * 1.3)
  let d3 := adjustVibrance O.powO d2 w h (intensity * 1.3)
  let d4 := reduceDynamicRange d3 w h intensity
  let image2 := pixelsToImage d4 w h
  let image3 := reduceLocalContrast O image2 (intensity * 1.0) 5
  let image4 := applyBloomEffect O image3
    (BloomOptions.mk 0.8 150 (intensity * 0.8) (intensity * 0.01)
      (intensity * 0.5) (intensity * 0.001))
  let d5 := addChromaticAberration (imageToPixels image4) image4.width image4.height intensity
  let image5 := pixelsToImage d5 image4.width image4.height
  let image6 := applyOversharpening O image5 (intensity * 1.3)
  let d6 := addDigitalNoise O.noise (imageToPixels image6) image6.width image6.height intensity
  let d7 := applyBarrelDistortion O.sqrtO d6 image6.width image6.height intensity
  let image7 := pixelsToImage d7 image6.width image6.height
  let image8 := applyJpegArtifacts O image7 intensity
  let image9 := drawImageToSurface O image8 originalW originalH
  if addStamp then addDateStamp O image9 options.dateStampText else image9

/-! ### Index arithmetic for row-major RGBA buffers -/

theorem pixel_lt {w h x y : ℕ} (hx : x < w) (hy : y < h) : y * w + x < w * h := by
  have h2 : (y + 1) * w ≤ h * w := Nat.mul_le_mul_right w hy
  have h3 : (y + 1) * w = y * w + w := Nat.succ_mul y w
  rw [Nat.mul_comm w h]
  omega

theorem pixel_mod {w x : ℕ} (y : ℕ) (hx : x < w) :
    (y * w + x) % w = x ∧ (y * w + x) / w = y := by
  have hw : 0 < w := by omega
  constructor
  · rw [Nat.add_comm, Nat.mul_comm, Nat.add_mul_mod_self_left, Nat.mod_eq_of_lt hx]
  · rw [Nat.add_comm, Nat.mul_comm, Nat.add_mul_div_left x y hw, Nat.div_eq_of_lt hx]
    omega

/-! ### Concrete fixtures for witnesses and counterexamples -/

/-- Model of `Math.pow` at the exact argument points reached by the concrete
inputs below: `Math.pow(0, e) = 0` for positive `e` and `Math.pow(1, e) = 1`
exactly, also in IEEE arithmetic.  (Other bases are never evaluated on those
inputs.) -/
def powExact (x _e : ℚ) : ℚ := if x = 0 then 0 else if x = 1 then 1 else 0

/-- A concrete instantiation of the external capabilities, used to discharge
hypotheses at concrete inputs: blur and date-stamp compositing keep the
pixel bytes, resampling yields an opaque-black surface, the codec fails,
`sqrt` returns `2/5`, `pow` is `powExact`, the random streams are
constant. -/
def Otest : Oracles :=
  Oracles.mk (fun _ img => img.data) (fun _ w h => List.replicate (w*h*4) (0 : Byte))
    (fun img _ => img.data) (fun _ _ => none) (fun _ => none)
    (fun _ => 2/5) powExact (fun _ => 0) (fun _ => 1/2)

/-- A 1×1 opaque white image. -/
def imgWhite : Image := ⟨1, 1, [255, 255, 255, 255]⟩

/-! ### Claim theorems -/

/-- C1: for every input image and every options value (any intensity,
addDateStamp true or false, any dateStampText), and for any behaviour of the
external capabilities, the image returned by `applyY2KCameraEffect` has
exactly the same width and height as the input image. -/
theorem c1_shape_invariant (O : Oracles) (sourceImage : Image) (options : Y2KOptions) :
    (applyY2KCameraEffect O sourceImage options).width = sourceImage.width ∧
    (applyY2KCameraEffect O sourceImage options).height = sourceImage.height := by
  unfold applyY2KCameraEffect
  rcases options.addDateStamp with _ | b
  · exact ⟨rfl, rfl⟩
  · cases b
    · exact ⟨rfl, rfl⟩
    · exact ⟨rfl, rfl⟩

/-- C4: if the lossy re-encode step's codec reports a failure — the encode
returns no bytes, or the decode of the encoded bytes returns no image — the
stage returns the pre-encode image unchanged (it is a total function, so no
error propagates). -/
theorem c4_recode_failure_resilience (O : Oracles) (image : Image) (intensity : ℚ) :
    (O.encodeBytes image (jsRound (70 - 30 * intensity)) = none →
      applyJpegArtifacts O image intensity = image) ∧
    (∀ encoded, O.encodeBytes image (jsRound (70 - 30 * intensity)) = some encoded →
      O.decodeImage encoded = none →
      applyJpegArtifacts O image intensity = image) := by
  constructor
  · intro henc
    simp only [applyJpegArtifacts, henc]
  · intro encoded henc hdec
    simp only [applyJpegArtifacts, henc, hdec]

/-- Evaluation of `addChromaticAberration` at channel `c` of pixel `(x, y)`
when the shift is at least 1; shared by the chromatic-aberration claims. -/
theorem addCA_getD (data : List ℚ) (w h : ℕ) (intensity : ℚ) (x y c : ℕ)
    (hx : x < w) (hy : y < h) (hc : c < 4) (hlen : data.length = w * h * 4)
    (hs : 1 ≤ ⌊2 * intensity⌋) :
    (addChromaticAberration data w h intensity).getD ((y * w + x) * 4 + c) 0 =
      (if c = 0 then
        (if (⌊2 * intensity⌋).toNat ≤ y ∧ (⌊2 * intensity⌋).toNat ≤ x then
          clamp (data.getD ((y * w + x) * 4) 0 * (1 - 0.5 * intensity)
            + data.getD (((y - (⌊2 * intensity⌋).toNat) * w + (x - (⌊2 * intensity⌋).toNat)) * 4) 0
              * (0.5 * intensity)) 0 255
        else data.getD ((y * w + x) * 4) 0)
      else if c = 2 then
        (if y + (⌊2 * intensity⌋).toNat < h ∧ x + (⌊2 * intensity⌋).toNat < w then
          clamp (data.getD ((y * w + x) * 4 + 2) 0 * (1 - 0.5 * intensity)
            + data.getD (((y + (⌊2 * intensity⌋).toNat) * w + (x + (⌊2 * intensity⌋).toNat)) * 4 + 2) 0
              * (0.5 * intensity)) 0 255
        else data.getD ((y * w + x) * 4 + 2) 0)
      else data.getD ((y * w + x) * 4 + c) 0) := by
  have hp := pixel_lt hx hy
  have hm := pixel_mod (w := w) y hx
  unfold addChromaticAberration
  rw [if_neg (by omega)]
  rw [mapIdxQ_getD]
  rw [if_pos (by omega : (y * w + x) * 4 + c < data.length)]
  have hdiv : ((y * w + x) * 4 + c) / 4 = y * w + x := by omega
  have hmod : ((y * w + x) * 4 + c) % 4 = c := by omega
  simp only [hdiv, hmod, hm.1, hm.2, if_pos hp]
  rcases (by omega : c = 0 ∨ c = 1 ∨ c = 2 ∨ c = 3) with hc0 | hc1 | hc2 | hc3
  · subst hc0; simp
  · subst hc1; simp
  · subst hc2; simp
  · subst hc3; simp

/-- C8: the chromatic aberration stage uses integer shift `⌊2·intensity⌋`;
when the shift is below 1 the buffer is returned unchanged; when it is at
least 1, each pixel's R channel becomes the clamped blend (weights
`1 − 0.5·intensity` and `0.5·intensity`) of the original R and the R sampled
at `(x − shift, y − shift)`, and B the analogous blend with the sample at
`(x + shift, y + shift)`, the blend being skipped whenever the sample
coordinate is out of bounds.  (The blend is clamped to `[0,255]` per the
stage-output clamp invariant.) -/
theorem c8_chromatic_aberration (data : List ℚ) (w h : ℕ) (intensity : ℚ) (x y : ℕ)
    (hx : x < w) (hy : y < h) (hlen : data.length = w * h * 4) :
    (⌊2 * intensity⌋ < 1 → addChromaticAberration data w h intensity = data) ∧
    (1 ≤ ⌊2 * intensity⌋ →
      ((addChromaticAberration data w h intensity).getD ((y * w + x) * 4) 0 =
        (if (⌊2 * intensity⌋).toNat ≤ y ∧ (⌊2 * intensity⌋).toNat ≤ x then
          clamp (data.getD ((y * w + x) * 4) 0 * (1 - 0.5 * intensity)
            + data.getD (((y - (⌊2 * intensity⌋).toNat) * w + (x - (⌊2 * intensity⌋).toNat)) * 4) 0
              * (0.5 * intensity)) 0 255
        else data.getD ((y * w + x) * 4) 0)) ∧
      ((addChromaticAberration data w h intensity).getD ((y * w + x) * 4 + 2) 0 =
        (if y + (⌊2 * intensity⌋).toNat < h ∧ x + (⌊2 * intensity⌋).toNat < w then
          clamp (data.getD ((y * w + x) * 4 + 2) 0 * (1 - 0.5 * intensity)
            + data.getD (((y + (⌊2 * intensity⌋).toNat) * w + (x + (⌊2 * intensity⌋).toNat)) * 4 + 2) 0
              * (0.5 * intensity)) 0 255
        else data.getD ((y * w + x) * 4 + 2) 0))) := by
  constructor
  · intro hlt
    unfold addChromaticAberration
    rw [if_pos hlt]
  · intro hs
    constructor
    · have := addCA_getD data w h intensity x y 0 hx hy (by omega) hlen hs
      simpa only [Nat.add_zero, reduceIte] using this
    · have := addCA_getD data w h intensity x y 2 hx hy (by omega) hlen hs
      simpa only [reduceIte] using this

/-- Witness for C8 at a concrete buffer: a 2×1 image, intensity 1
(shift 1): pixel (1,0) has no in-bounds R sample (y − 1 out of bounds) and
no in-bounds B sample (y + 1 out of bounds). -/
theorem c8_chromatic_aberration_witness :
    (1 : ℕ) < 2 ∧ (0 : ℕ) < 1 ∧ ([10, 20, 30, 40, 50, 60, 70, 80] : List ℚ).length = 2 * 1 * 4 ∧
    (⌊(2 : ℚ) * 1⌋ < 1 → addChromaticAberration [10, 20, 30, 40, 50, 60, 70, 80] 2 1 1 =
      [10, 20, 30, 40, 50, 60, 70, 80]) ∧
    (1 ≤ ⌊(2 : ℚ) * 1⌋ →
      ((addChromaticAberration [10, 20, 30, 40, 50, 60, 70, 80] 2 1 1).getD ((0 * 2 + 1) * 4) 0 =
        (if (⌊(2 : ℚ) * 1⌋).toNat ≤ 0 ∧ (⌊(2 : ℚ) * 1⌋).toNat ≤ 1 then
          clamp (([10, 20, 30, 40, 50, 60, 70, 80] : List ℚ).getD ((0 * 2 + 1) * 4) 0 * (1 - 0.5 * 1)
            + ([10, 20, 30, 40, 50, 60, 70, 80] : List ℚ).getD
                (((0 - (⌊(2 : ℚ) * 1⌋).toNat) * 2 + (1 - (⌊(2 : ℚ) * 1⌋).toNat)) * 4) 0
              * (0.5 * 1)) 0 255
        else ([10, 20, 30, 40, 50, 60, 70, 80] : List ℚ).getD ((0 * 2 + 1) * 4) 0)) ∧
      ((addChromaticAberration [10, 20, 30, 40, 50, 60, 70, 80] 2 1 1).getD ((0 * 2 + 1) * 4 + 2) 0 =
        (if 0 + (⌊(2 : ℚ) * 1⌋).toNat < 1 ∧ 1 + (⌊(2 : ℚ) * 1⌋).toNat < 2 then
          clamp (([10, 20, 30, 40, 50, 60, 70, 80] : List ℚ).getD ((0 * 2 + 1) * 4 + 2) 0 * (1 - 0.5 * 1)
            + ([10, 20, 30, 40, 50, 60, 70, 80] : List ℚ).getD
                (((0 + (⌊(2 : ℚ) * 1⌋).toNat) * 2 + (1 + (⌊(2 : ℚ) * 1⌋).toNat)) * 4 + 2) 0
              * (0.5 * 1)) 0 255
        else ([10, 20, 30, 40, 50, 60, 70, 80] : List ℚ).getD ((0 * 2 + 1) * 4 + 2) 0))) :=
  ⟨by omega, by omega, by simp,
    (c8_chromatic_aberration [10, 20, 30, 40, 50, 60, 70, 80] 2 1 1 1 0
      (by omega) (by omega) (by simp)).1,
    (c8_chromatic_aberration [10, 20, 30, 40, 50, 60, 70, 80] 2 1 1 1 0
      (by omega) (by omega) (by simp)).2⟩

/-- C10: the chromatic aberration stage leaves the green and alpha channels
of every pixel unchanged, leaves a pixel's red channel unchanged when the
sample coordinate `(x − shift, y − shift)` is out of bounds, and leaves its
blue channel unchanged when `(x + shift, y + shift)` is out of bounds. -/
theorem c10_chromatic_aberration_frame (data : List ℚ) (w h : ℕ) (intensity : ℚ) (x y : ℕ)
    (hx : x < w) (hy : y < h) (hlen : data.length = w * h * 4) :
    ((addChromaticAberration data w h intensity).getD ((y * w + x) * 4 + 1) 0 =
      data.getD ((y * w + x) * 4 + 1) 0) ∧
    ((addChromaticAberration data w h intensity).getD ((y * w + x) * 4 + 3) 0 =
      data.getD ((y * w + x) * 4 + 3) 0) ∧
    (¬((⌊2 * intensity⌋).toNat ≤ y ∧ (⌊2 * intensity⌋).toNat ≤ x) →
      (addChromaticAberration data w h intensity).getD ((y * w + x) * 4) 0 =
        data.getD ((y * w + x) * 4) 0) ∧
    (¬(y + (⌊2 * intensity⌋).toNat < h ∧ x + (⌊2 * intensity⌋).toNat < w) →
      (addChromaticAberration data w h intensity).getD ((y * w + x) * 4 + 2) 0 =
        data.getD ((y * w + x) * 4 + 2) 0) := by
  by_cases hs : ⌊2 * intensity⌋ < 1
  · have hid : addChromaticAberration data w h intensity = data := by
      unfold addChromaticAberration
      rw [if_pos hs]
    rw [hid]
    exact ⟨rfl, rfl, fun _ => rfl, fun _ => rfl⟩
  · have hs' : 1 ≤ ⌊2 * intensity⌋ := by omega
    refine ⟨?_, ?_, ?_, ?_⟩
    · have := addCA_getD data w h intensity x y 1 hx hy (by omega) hlen hs'
      simpa only [reduceIte] using this
    · have := addCA_getD data w h intensity x y 3 hx hy (by omega) hlen hs'
      simpa only [reduceIte] using this
    · intro hoob
      have := addCA_getD data w h intensity x y 0 hx hy (by omega) hlen hs'
      simp only [Nat.add_zero, reduceIte] at this
      rw [this, if_neg hoob]
    · intro hoob
      have := addCA_getD data w h intensity x y 2 hx hy (by omega) hlen hs'
      rw [this, if_neg (by omega : ¬((2:ℕ) = 0)), if_pos (rfl : (2:ℕ) = 2), if_neg hoob]

/-- Witness for C10 on a concrete 1×1 buffer with intensity 1 (shift 2,
both samples out of bounds): all four channels are unchanged. -/
theorem c10_chromatic_aberration_frame_witness :
    (0 : ℕ) < 1 ∧ ([10, 20, 30, 40] : List ℚ).length = 1 * 1 * 4 ∧
    ((addChromaticAberration [10, 20, 30, 40] 1 1 1).getD ((0 * 1 + 0) * 4 + 1) 0 =
      ([10, 20, 30, 40] : List ℚ).getD ((0 * 1 + 0) * 4 + 1) 0) :=
  ⟨by omega, by simp,
    (c10_chromatic_aberration_frame [10, 20, 30, 40] 1 1 1 0 0
      (by omega) (by omega) (by simp)).1⟩

/-! ### Range preservation of the mutating stages -/

theorem InRange_mapIdxQ {f : ℕ → ℚ → ℚ} {l : List ℚ}
    (hf : ∀ k, k < l.length →
      0 ≤ f k (l.getD k 0) ∧ f k (l.getD k 0) ≤ 255) :
    InRange (mapIdxQ f l) := by
  intro v hv
  obtain ⟨j, hj, rfl⟩ := mapIdxQ_mem f l v hv
  exact hf j hj

theorem applyCoolCast_inRange (data : List ℚ) (w h : ℕ) (intensity : ℚ)
    (hbuf : InRange data) : InRange (applyCoolCast data w h intensity) := by
  unfold applyCoolCast
  apply InRange_mapIdxQ
  intro k hk
  dsimp only
  split_ifs <;> first
    | exact hbuf.getD k
    | exact clamp_mem _ 0 255 (by norm_num)

theorem adjustSaturation_inRange (data : List ℚ) (w h : ℕ) (factor : ℚ)
    (hbuf : InRange data) : InRange (adjustSaturation data w h factor) := by
  unfold adjustSaturation
  apply InRange_mapIdxQ
  intro k hk
  dsimp only
  split_ifs <;> first
    | exact hbuf.getD k
    | exact clamp_mem _ 0 255 (by norm_num)

theorem adjustVibrance_inRange (powO : ℚ → ℚ → ℚ) (data : List ℚ) (w h : ℕ)
    (vibranceFactor : ℚ) (hbuf : InRange data) :
    InRange (adjustVibrance powO data w h vibranceFactor) := by
  unfold adjustVibrance
  split_ifs with hvf
  · exact hbuf
  · apply InRange_mapIdxQ
    intro k hk
    dsimp only
    split_ifs <;> first
      | exact hbuf.getD k
      | exact clamp_mem _ 0 255 (by norm_num)

theorem reduceDynamicRange_inRange (data : List ℚ) (w h : ℕ) (intensity : ℚ)
    (hbuf : InRange data) : InRange (reduceDynamicRange data w h intensity) := by
  unfold reduceDynamicRange
  apply InRange_mapIdxQ
  intro k hk
  dsimp only
  split_ifs <;> first
    | exact hbuf.getD k
    | exact clamp_mem _ 0 255 (by norm_num)

theorem addChromaticAberration_inRange (data : List ℚ) (w h : ℕ) (intensity : ℚ)
    (hbuf : InRange data) : InRange (addChromaticAberration data w h intensity) := by
  unfold addChromaticAberration
  split_ifs with hsh
  · exact hbuf
  · apply InRange_mapIdxQ
    intro k hk
    dsimp only
    split_ifs <;> first
      | exact hbuf.getD k
      | exact clamp_mem _ 0 255 (by norm_num)

theorem addDigitalNoise_inRange (noise : ℕ → ℚ) (data : List ℚ) (w h : ℕ)
    (intensity : ℚ) (hbuf : InRange data) :
    InRange (addDigitalNoise noise data w h intensity) := by
  unfold addDigitalNoise
  apply InRange_mapIdxQ
  intro k hk
  dsimp only
  split_ifs <;> first
    | exact hbuf.getD k
    | exact clamp_mem _ 0 255 (by norm_num)

theorem applyBarrelDistortion_inRange (sqrtO : ℚ → ℚ) (data : List ℚ) (w h : ℕ)
    (intensity : ℚ) (hbuf : InRange data) :
    InRange (applyBarrelDistortion sqrtO data w h intensity) := by
  unfold applyBarrelDistortion
  apply InRange_mapIdxQ
  intro k hk
  dsimp only
  split_ifs <;> first
    | exact hbuf.getD _
    | norm_num

theorem reduceLocalContrastBuf_inRange (O : Oracles) (image : Image) (amount : ℚ)
    (windowSize : ℕ) : InRange (reduceLocalContrastBuf O image amount windowSize) := by
  unfold reduceLocalContrastBuf
  apply InRange_mapIdxQ
  intro k hk
  dsimp only
  split_ifs <;> first
    | exact (imageToPixels_inRange image).getD k
    | exact clamp_mem _ 0 255 (by norm_num)

theorem applyBloomEffectBuf_inRange (O : Oracles) (image : Image) (opts : BloomOptions) :
    InRange (applyBloomEffectBuf O image opts) := by
  intro v hv
  unfold applyBloomEffectBuf at hv
  obtain ⟨k, _, rfl⟩ := List.mem_map.mp hv
  split_ifs
  · unfold bloomResultF
    split_ifs
    · norm_num
    all_goals exact clamp_mem _ 0 255 (by norm_num)
  · norm_num
  · norm_num

theorem applyOversharpeningBuf_inRange (O : Oracles) (image : Image) (intensity : ℚ) :
    InRange (applyOversharpeningBuf O image intensity) := by
  unfold applyOversharpeningBuf
  apply InRange_mapIdxQ
  intro k hk
  dsimp only
  split_ifs <;> first
    | exact (imageToPixels_inRange image).getD k
    | exact clamp_mem _ 0 255 (by norm_num)

/-- C2 (amended): for every mutating stage, if the channel values of the
input buffer lie in `[0,255]` — as all buffers produced by `imageToPixels`
do — then every channel value of the stage's output buffer lies in
`[0,255]`; the stages that read their input directly from an image
(`reduceLocalContrast`, `applyBloomEffect`, `applyOversharpening`) satisfy
the bound unconditionally, and every byte produced by `pixelsToImage` is at
most 255. -/
theorem c2_clamp_invariant (data : List ℚ) (w h : ℕ)
    (intensity factor vibranceFactor amount : ℚ) (O : Oracles) (image : Image)
    (opts : BloomOptions) (hbuf : InRange data) :
    InRange (applyCoolCast data w h intensity) ∧
    InRange (adjustSaturation data w h factor) ∧
    InRange (adjustVibrance O.powO data w h vibranceFactor) ∧
    InRange (reduceDynamicRange data w h intensity) ∧
    InRange (addChromaticAberration data w h intensity) ∧
    InRange (addDigitalNoise O.noise data w h intensity) ∧
    InRange (applyBarrelDistortion O.sqrtO data w h intensity) ∧
    InRange (reduceLocalContrastBuf O image amount 5) ∧
    InRange (applyBloomEffectBuf O image opts) ∧
    InRange (applyOversharpeningBuf O image intensity) ∧
    (∀ b ∈ (pixelsToImage data w h).data, b.val ≤ 255) :=
  ⟨applyCoolCast_inRange data w h intensity hbuf,
   adjustSaturation_inRange data w h factor hbuf,
   adjustVibrance_inRange O.powO data w h vibranceFactor hbuf,
   reduceDynamicRange_inRange data w h intensity hbuf,
   addChromaticAberration_inRange data w h intensity hbuf,
   addDigitalNoise_inRange O.noise data w h intensity hbuf,
   applyBarrelDistortion_inRange O.sqrtO data w h intensity hbuf,
   reduceLocalContrastBuf_inRange O image amount 5,
   applyBloomEffectBuf_inRange O image opts,
   applyOversharpeningBuf_inRange O image intensity,
   fun b _ => Nat.lt_succ_iff.mp b.isLt⟩

/-- Counterexample for C2 as literally stated ("every input buffer"): the
cool-cast stage passes the alpha channel through unchanged, so an input
buffer with an out-of-range alpha value yields an out-of-range output
value. -/
theorem c2_clamp_invariant_counterexample :
    ¬ InRange (applyCoolCast [0, 0, 0, 300] 1 1 1) := by
  intro hr
  have h300 : (applyCoolCast [0, 0, 0, 300] 1 1 1).getD 3 0 = 300 := rfl
  have hmem := hr.getD 3
  rw [h300] at hmem
  norm_num at hmem

/-- Witness for C2 at a concrete in-range buffer and image. -/
theorem c2_clamp_invariant_witness :
    InRange [1, 2, 3, 4] ∧
    (InRange (applyCoolCast [1, 2, 3, 4] 1 1 1) ∧
    InRange (adjustSaturation [1, 2, 3, 4] 1 1 1) ∧
    InRange (adjustVibrance Otest.powO [1, 2, 3, 4] 1 1 1) ∧
    InRange (reduceDynamicRange [1, 2, 3, 4] 1 1 1) ∧
    InRange (addChromaticAberration [1, 2, 3, 4] 1 1 1) ∧
    InRange (addDigitalNoise Otest.noise [1, 2, 3, 4] 1 1 1) ∧
    InRange (applyBarrelDistortion Otest.sqrtO [1, 2, 3, 4] 1 1 1) ∧
    InRange (reduceLocalContrastBuf Otest imgWhite 1 5) ∧
    InRange (applyBloomEffectBuf Otest imgWhite (BloomOptions.mk 1 150 1 1 1 1)) ∧
    InRange (applyOversharpeningBuf Otest imgWhite 1) ∧
    (∀ b ∈ (pixelsToImage [1, 2, 3, 4] 1 1).data, b.val ≤ 255)) :=
  have hb : InRange [1, 2, 3, 4] := by
    intro v hv
    simp only [List.mem_cons, List.not_mem_nil, or_false] at hv
    rcases hv with rfl | rfl | rfl | rfl <;> norm_num
  ⟨hb, c2_clamp_invariant [1, 2, 3, 4] 1 1 1 1 1 1 Otest imgWhite
    (BloomOptions.mk 1 150 1 1 1 1) hb⟩

/-! ### Date-stamp format -/

/-- ASCII digit test. -/
def isDigitChar (c : Char) : Bool := 48 ≤ c.toNat && c.toNat ≤ 57

/-- Checks the `MM/DD/YYYY` shape: exactly ten characters, slashes at
positions 2 and 5, digits elsewhere, zero-padded two-digit month in
`[1,12]` and day in `[1,28]`, four-digit year in `[2001,2006]`. -/
def isDateFormat (s : String) : Bool :=
  match s.data with
  | [m1, m2, s1, d1, d2, s2, y1, y2, y3, y4] =>
    isDigitChar m1 && isDigitChar m2 && s1 == '/' &&
    isDigitChar d1 && isDigitChar d2 && s2 == '/' &&
    isDigitChar y1 && isDigitChar y2 && isDigitChar y3 && isDigitChar y4 &&
    (let mo := (m1.toNat - 48) * 10 + (m2.toNat - 48)
     let da := (d1.toNat - 48) * 10 + (d2.toNat - 48)
     let yr := (y1.toNat - 48) * 1000 + (y2.toNat - 48) * 100
       + (y3.toNat - 48) * 10 + (y4.toNat - 48)
     1 ≤ mo && mo ≤ 12 && 1 ≤ da && da ≤ 28 && 2001 ≤ yr && yr ≤ 2006)
  | _ => false

set_option maxHeartbeats 1000000 in
/-- Exhaustive check of the format over the whole generated range. -/
theorem mkDateString_format : ∀ a < 6, ∀ b < 12, ∀ c < 28,
    isDateFormat (mkDateString (1 + b) (1 + c) (2001 + a)) = true := by decide

/-- Witness for C4: with a codec that fails to encode, the stage on a
concrete image is the identity. -/
theorem c4_recode_failure_resilience_witness :
    Otest.encodeBytes imgWhite (jsRound (70 - 30 * 1)) = none ∧
    applyJpegArtifacts Otest imgWhite 1 = imgWhite :=
  ⟨rfl, (c4_recode_failure_resilience Otest imgWhite 1).1 rfl⟩

/-- C9: every date string generated by the date-stamp stage when no
caller-supplied text is given — from three ambient uniform draws in
`[0, 1)` — matches `MM/DD/YYYY` with zero-padded two-digit month and day,
year in `[2001,2006]`, month in `[1,12]`, day in `[1,28]`. -/
theorem c9_date_stamp_format (r1 r2 r3 : ℚ)
    (h1a : 0 ≤ r1) (h1b : r1 < 1) (h2a : 0 ≤ r2) (h2b : r2 < 1)
    (h3a : 0 ≤ r3) (h3b : r3 < 1) :
    isDateFormat (genDateText r1 r2 r3) = true := by
  have ha : (⌊r1 * 6⌋).toNat < 6 := by
    have h6 : ⌊r1 * 6⌋ < 6 := Int.floor_lt.mpr (by push_cast; linarith)
    have h0 : 0 ≤ ⌊r1 * 6⌋ := Int.floor_nonneg.mpr (by positivity)
    omega
  have hb : (⌊r2 * 12⌋).toNat < 12 := by
    have h6 : ⌊r2 * 12⌋ < 12 := Int.floor_lt.mpr (by push_cast; linarith)
    have h0 : 0 ≤ ⌊r2 * 12⌋ := Int.floor_nonneg.mpr (by positivity)
    omega
  have hc : (⌊r3 * 28⌋).toNat < 28 := by
    have h6 : ⌊r3 * 28⌋ < 28 := Int.floor_lt.mpr (by push_cast; linarith)
    have h0 : 0 ≤ ⌊r3 * 28⌋ := Int.floor_nonneg.mpr (by positivity)
    omega
  have h := mkDateString_format (⌊r1 * 6⌋).toNat ha (⌊r2 * 12⌋).toNat hb (⌊r3 * 28⌋).toNat hc
  simpa [genDateText] using h

/-- Witness for C9 at the constant draws `1/2`: the generated string is
`07/15/2004`, which matches the format. -/
theorem c9_date_stamp_format_witness :
    (0 ≤ (1/2 : ℚ) ∧ (1/2 : ℚ) < 1) ∧
    isDateFormat (genDateText (1/2) (1/2) (1/2)) = true :=
  ⟨⟨by norm_num, by norm_num⟩,
    c9_date_stamp_format (1/2) (1/2) (1/2) (by norm_num) (by norm_num)
      (by norm_num) (by norm_num) (by norm_num) (by norm_num)⟩

/-! ### Resolution reduction at the pipeline call site -/

/-- Dimensions produced by `reduceResolution` when the source exceeds the
2,000,000-pixel target. -/
theorem reduceResolution_dims (O : Oracles) (image : Image) (i : Rat)
    (hgt : 2000000 < image.width * image.height) :
    (reduceResolution O image i).width =
      (jsRound ((image.width : Rat) *
        (1 - (1 - O.sqrtO (((2000000 : Nat) : Rat) / ((image.width * image.height : Nat) : Rat))) * i))).toNat ∧
    (reduceResolution O image i).height =
      (jsRound ((image.height : Rat) *
        (1 - (1 - O.sqrtO (((2000000 : Nat) : Rat) / ((image.width * image.height : Nat) : Rat))) * i))).toNat := by
  unfold reduceResolution drawImageToSurface
  rw [if_neg (by omega)]
  exact ⟨rfl, rfl⟩

/-- A 4000×3000 source image (pixel content irrelevant to the dimension
computation). -/
def imgBig : Image := ⟨4000, 3000, []⟩

/-- C3 (code-bug evidence): the orchestrator calls `reduceResolution` with
`intensity * 0.02`, so at top-level intensity 1 a 4000×3000 source is
resized only to about 3953×2964 — more than 2,000,000 pixels, contradicting
the function's own "reduce to ~2MP" documentation and the claimed scale
factor `1 − (1 − s)·intensity`, under which the new width would be at most
2000.  The hypotheses say only that `sqrt(1/6)` is nonnegative and at most
`1/2` (squared), which holds for any faithful square root. -/
theorem c3_reduce_resolution_code_bug (O : Oracles)
    (hs0 : 0 ≤ O.sqrtO (1/6)) (hs1 : O.sqrtO (1/6) ^ 2 ≤ 1/4) :
    2000000 <
      (reduceResolution O imgBig (1 * 0.02)).width *
      (reduceResolution O imgBig (1 * 0.02)).height ∧
    (jsRound (4000 * (1 - (1 - O.sqrtO (1/6)) * 1))).toNat ≤ 2000 := by
  have hw4 : imgBig.width = 4000 := rfl
  have hh3 : imgBig.height = 3000 := rfl
  have harg : (((2000000 : Nat) : Rat) / ((imgBig.width * imgBig.height : Nat) : Rat)) = 1/6 := by
    rw [hw4, hh3]; norm_num
  have hdims := reduceResolution_dims O imgBig (1 * 0.02) (by rw [hw4, hh3]; norm_num)
  rw [harg, hw4, hh3] at hdims
  have hs2 : O.sqrtO (1/6) ≤ 1/2 := by nlinarith
  constructor
  · rw [hdims.1, hdims.2]
    have hwlb : (3920 : Int) ≤ jsRound ((4000 : Rat) * (1 - (1 - O.sqrtO (1/6)) * (1 * 0.02))) := by
      unfold jsRound
      rw [Int.le_floor]
      push_cast
      nlinarith
    have hhlb : (2940 : Int) ≤ jsRound ((3000 : Rat) * (1 - (1 - O.sqrtO (1/6)) * (1 * 0.02))) := by
      unfold jsRound
      rw [Int.le_floor]
      push_cast
      nlinarith
    have hW : 3920 ≤ (jsRound ((4000 : Rat) * (1 - (1 - O.sqrtO (1/6)) * (1 * 0.02)))).toNat := by omega
    have hH : 2940 ≤ (jsRound ((3000 : Rat) * (1 - (1 - O.sqrtO (1/6)) * (1 * 0.02)))).toNat := by omega
    calc 2000000 < 3920 * 2940 := by norm_num
    _ ≤ _ := Nat.mul_le_mul hW hH
  · have hub : jsRound (4000 * (1 - (1 - O.sqrtO (1/6)) * 1)) < 2001 := by
      unfold jsRound
      rw [Int.floor_lt]
      push_cast
      nlinarith
    omega

/-- Witness for C3's evidence theorem at a concrete square-root value. -/
theorem c3_reduce_resolution_code_bug_witness :
    (0 ≤ Otest.sqrtO (1/6) ∧ Otest.sqrtO (1/6) ^ 2 ≤ 1/4) ∧
    (2000000 <
      (reduceResolution Otest imgBig (1 * 0.02)).width *
      (reduceResolution Otest imgBig (1 * 0.02)).height ∧
    (jsRound (4000 * (1 - (1 - Otest.sqrtO (1/6)) * 1))).toNat ≤ 2000) :=
  ⟨⟨by norm_num [Otest], by norm_num [Otest]⟩,
    c3_reduce_resolution_code_bug Otest (by norm_num [Otest]) (by norm_num [Otest])⟩

/-! ### Sharpening stage -/

/-- The claim's sharpening formula:
`newValue = clamp(value + (value − blurredValue)·1.5·a, 0, 255)` for a
sharpening intensity argument `a`.  (Modelled from the spec's words, for
comparison with the stage as the pipeline invokes it.) -/
def specSharpenValue (v bv a : Rat) : Rat := clamp (v + (v - bv) * (1.5 * a)) 0 255

/-- Blur capability that returns an all-zero (black) blurred layer, to make
the unsharp difference visible on a concrete input. -/
def Oblur0 : Oracles :=
  Oracles.mk (fun _ _ => [0, 0, 0, 0]) (fun _ w h => List.replicate (w*h*4) (0 : Byte))
    (fun img _ => img.data) (fun _ _ => none) (fun _ => none)
    (fun _ => 2/5) powExact (fun _ => 0) (fun _ => 1/2)

/-- A 1×1 mid-gray image. -/
def imgGray : Image := ⟨1, 1, [100, 100, 100, 255]⟩

/-- Counterexample for C7 as stated: at top-level intensity 1, the
pipeline's sharpening step (which receives `intensity * 1.3`) does not
compute the claimed `clamp(value + (value − blurred)·1.5·intensity)` with
`intensity` the top-level intensity: on a mid-gray pixel whose blurred value
is 0 the stage produces 255 while the claimed formula gives 250. -/
theorem c7_sharpening_formula_counterexample :
    (applyOversharpeningBuf Oblur0 imgGray (1 * 1.3)).getD 0 0 ≠
      specSharpenValue ((imageToPixels imgGray).getD 0 0)
        ((imageToPixels (applyGaussianBlur Oblur0 (pilRadiusToSigma 1.5) imgGray)).getD 0 0) 1 := by
  norm_num [applyOversharpeningBuf, specSharpenValue, imageToPixels, applyGaussianBlur,
    pilRadiusToSigma, imgGray, Oblur0, mapIdxQ, mapIdxGo, clamp,
    show (((100 : Byte) : Nat) : Rat) = 100 from rfl]

/-- C7 (amended): for every non-alpha channel, the sharpening stage as the
pipeline invokes it computes
`clamp(value + (value − blurredValue)·1.5·a, 0, 255)` where
`a = 1.3 · intensity` is the stage argument supplied by the orchestrator
(so the effective multiplier is `1.95 · intensity` in terms of the
top-level intensity), with the blurred value taken from the Gaussian blur
at fixed radius 1.5 (converted to sigma). -/
theorem c7_sharpening_formula (O : Oracles) (image : Image) (intensity : Rat) (k : Nat)
    (hk3 : k % 4 ≠ 3) (hk : k < (imageToPixels image).length) :
    (applyOversharpeningBuf O image (intensity * 1.3)).getD k 0 =
      specSharpenValue ((imageToPixels image).getD k 0)
        ((imageToPixels (applyGaussianBlur O (pilRadiusToSigma 1.5) image)).getD k 0)
        (intensity * 1.3) := by
  simp only [applyOversharpeningBuf, specSharpenValue]
  rw [mapIdxQ_getD, if_pos hk, if_neg hk3]

/-- Witness for C7's amended theorem at the red channel of a concrete
image. -/
theorem c7_sharpening_formula_witness :
    ((0 : Nat) % 4 ≠ 3 ∧ 0 < (imageToPixels imgGray).length) ∧
    (applyOversharpeningBuf Oblur0 imgGray (1 * 1.3)).getD 0 0 =
      specSharpenValue ((imageToPixels imgGray).getD 0 0)
        ((imageToPixels (applyGaussianBlur Oblur0 (pilRadiusToSigma 1.5) imgGray)).getD 0 0)
        (1 * 1.3) :=
  ⟨⟨by omega, by norm_num [imageToPixels, imgGray]⟩,
    c7_sharpening_formula Oblur0 imgGray 1 0 (by omega)
      (by norm_num [imageToPixels, imgGray])⟩

/-! ### Bloom monotonicity in the bloom strength -/

theorem rangeMap_getD (f : Nat -> Rat) (n j : Nat) :
    ((List.range n).map f).getD j 0 = if j < n then f j else 0 := by
  by_cases hj : j < n
  · rw [List.getD_eq_getElem _ _ (by simpa using hj)]
    simp [hj]
  · rw [List.getD_eq_default _ _ (by simpa using hj)]
    simp [hj]

theorem imageToPixels_pixelsToImage_getD (buf : List Rat) (w h j : Nat)
    (hj : j < buf.length) :
    (imageToPixels (pixelsToImage buf w h)).getD j 0 = byteQ (buf.getD j 0) := by
  unfold imageToPixels pixelsToImage byteQ
  rw [List.getD_eq_getElem _ _ (by simpa using hj), List.getD_eq_getElem _ _ hj]
  simp

theorem bloomBlurred_getD_mem (O : Oracles) (image : Image) (opts : BloomOptions)
    (mult : Rat) (k : Nat) :
    0 ≤ (bloomBlurred O image opts mult).getD k 0 ∧
    (bloomBlurred O image opts mult).getD k 0 ≤ 255 := by
  unfold bloomBlurred
  exact imageToPixels_getD_mem _ _

theorem bloomCrushBlurred_getD_mem (O : Oracles) (image : Image) (opts : BloomOptions)
    (mult : Rat) (k : Nat) :
    0 ≤ (bloomCrushBlurred O image opts mult).getD k 0 ∧
    (bloomCrushBlurred O image opts mult).getD k 0 ≤ 255 := by
  unfold bloomCrushBlurred
  exact imageToPixels_getD_mem _ _

theorem bloomCbF_nonneg (O : Oracles) (image : Image) (opts : BloomOptions) (k : Nat) :
    0 ≤ bloomCbF O image opts k := by
  unfold bloomCbF
  have h1 := (bloomBlurred_getD_mem O image opts 1 k).1
  have h2 := (bloomBlurred_getD_mem O image opts 2.5 k).1
  have h3 := (bloomBlurred_getD_mem O image opts 4 k).1
  nlinarith

theorem bloomCiF_nonneg (O : Oracles) (image : Image) (opts : BloomOptions) (p : Nat) :
    0 ≤ bloomCiF O image opts p := by
  unfold bloomCiF
  have h1 := (bloomCrushBlurred_getD_mem O image opts 1 (4*p)).1
  have h2 := (bloomCrushBlurred_getD_mem O image opts 2 (4*p)).1
  nlinarith

theorem bloomHmF_nonneg (O : Oracles) (image : Image) (opts : BloomOptions) (p : Nat)
    (hpow : ∀ x y, 0 ≤ x → 0 ≤ O.powO x y) :
    0 ≤ bloomHmF O image opts p := by
  unfold bloomHmF
  exact hpow _ _ (clamp_mem _ 0 1 (by norm_num)).1

theorem bloomHighlightAmount_nonneg (O : Oracles) (image : Image) (opts : BloomOptions)
    (hpow : ∀ x y, 0 ≤ x → 0 ≤ O.powO x y) :
    0 ≤ bloomHighlightAmount O image opts := by
  unfold bloomHighlightAmount
  apply div_nonneg
  · exact Finset.sum_nonneg fun p _ => bloomHmF_nonneg O image opts p hpow
  · positivity

theorem bloomScf_nonneg (O : Oracles) (image : Image) (opts : BloomOptions)
    (hpow : ∀ x y, 0 ≤ x → 0 ≤ O.powO x y)
    (hI0 : 0 ≤ opts.intensity) (hS0 : 0 ≤ opts.shadowCrushStrength) :
    0 ≤ bloomScf O image opts := by
  unfold bloomScf
  have hha := bloomHighlightAmount_nonneg O image opts hpow
  have h1 : 0 ≤ opts.intensity * opts.shadowCrushStrength := mul_nonneg hI0 hS0
  have h2 : 0 ≤ (1 : Rat) + bloomHighlightAmount O image opts * 2 := by linarith
  nlinarith [mul_nonneg h1 h2]

theorem bloomAdjF_mem (O : Oracles) (image : Image) (opts : BloomOptions) (k : Nat)
    (hpow : ∀ x y, 0 ≤ x → 0 ≤ O.powO x y)
    (hI0 : 0 ≤ opts.intensity) (hI1 : opts.intensity ≤ 1)
    (hS0 : 0 ≤ opts.shadowCrushStrength) (hS2 : opts.shadowCrushStrength ≤ 2) :
    0 ≤ bloomAdjF O image opts k ∧ bloomAdjF O image opts k ≤ 255 := by
  unfold bloomAdjF
  split_ifs
  · norm_num
  · have hdat := imageToPixels_getD_mem image k
    have hsm : 0 ≤ O.powO (clamp (1 - luminanceAt (imageToPixels image) (k / 4) / 128) 0 1) 1.5 :=
      hpow _ _ (clamp_mem _ 0 1 (by norm_num)).1
    have hci := bloomCiF_nonneg O image opts (k / 4)
    have hscf := bloomScf_nonneg O image opts hpow hI0 hS0
    have hbl0 : (0 : Rat) ≤ 5 * opts.intensity * (2 - opts.shadowCrushStrength) := by nlinarith
    have hbl255 : 5 * opts.intensity * (2 - opts.shadowCrushStrength) ≤ 255 := by nlinarith
    have hcrush : 0 ≤ O.powO (clamp (1 - luminanceAt (imageToPixels image) (k / 4) / 128) 0 1) 1.5
        * bloomCiF O image opts (k / 4) * 0.3 * opts.intensity
        * opts.shadowCrushStrength * bloomScf O image opts := by positivity
    constructor
    · exact le_max_of_le_right hbl0
    · apply max_le _ hbl255
      nlinarith

theorem bloomResultF_mono (O : Oracles) (image : Image)
    (I T R S CR B1 B2 : Rat) (k : Nat)
    (hpow : ∀ x y, 0 ≤ x → 0 ≤ O.powO x y)
    (hI0 : 0 ≤ I) (hI1 : I ≤ 1) (hS0 : 0 ≤ S) (hS2 : S ≤ 2) (hB : B1 ≤ B2) :
    bloomResultF O image (BloomOptions.mk I T B1 R S CR) k ≤
    bloomResultF O image (BloomOptions.mk I T B2 R S CR) k := by
  have eadj : bloomAdjF O image (BloomOptions.mk I T B2 R S CR) k =
      bloomAdjF O image (BloomOptions.mk I T B1 R S CR) k := rfl
  have ecb : ∀ j, bloomCbF O image (BloomOptions.mk I T B2 R S CR) j =
      bloomCbF O image (BloomOptions.mk I T B1 R S CR) j := fun _ => rfl
  have hadj := bloomAdjF_mem O image (BloomOptions.mk I T B1 R S CR) k hpow hI0 hI1 hS0 hS2
  have hcb := bloomCbF_nonneg O image (BloomOptions.mk I T B1 R S CR) k
  have hbm := clamp_mem ((bloomCbF O image (BloomOptions.mk I T B1 R S CR) (4*(k/4))
    + bloomCbF O image (BloomOptions.mk I T B1 R S CR) (4*(k/4)+1)
    + bloomCbF O image (BloomOptions.mk I T B1 R S CR) (4*(k/4)+2)) / 765) 0 1 (by norm_num)
  unfold bloomResultF
  dsimp only
  rw [eadj]
  simp only [ecb]
  by_cases hk3 : k % 4 = 3
  · rw [if_pos hk3, if_pos hk3]
  · rw [if_neg hk3, if_neg hk3]
    apply clamp_mono 0 255 _ _ (by norm_num)
    by_cases hk0 : k % 4 = 0
    · rw [if_pos hk0, if_pos hk0]
      nlinarith [mul_nonneg (mul_nonneg (mul_nonneg (by linarith [hadj.2] :
          (0:Rat) ≤ 1 - bloomAdjF O image (BloomOptions.mk I T B1 R S CR) k / 255) hcb) hI0)
          (by linarith : (0:Rat) ≤ B2 - B1),
        mul_nonneg (mul_nonneg hcb hI0) (by linarith : (0:Rat) ≤ B2 - B1),
        mul_nonneg (mul_nonneg (mul_nonneg hbm.1 hI0) (by linarith : (0:Rat) ≤ B2 - B1)) (by norm_num : (0:Rat) ≤ 8)]
    · rw [if_neg hk0, if_neg hk0]
      by_cases hk2 : k % 4 = 2
      · rw [if_pos hk2, if_pos hk2]
        nlinarith [mul_nonneg (mul_nonneg (mul_nonneg (by linarith [hadj.2] :
            (0:Rat) ≤ 1 - bloomAdjF O image (BloomOptions.mk I T B1 R S CR) k / 255) hcb) hI0)
            (by linarith : (0:Rat) ≤ B2 - B1),
          mul_nonneg (mul_nonneg hcb hI0) (by linarith : (0:Rat) ≤ B2 - B1),
          mul_nonneg (mul_nonneg (mul_nonneg hbm.1 hI0) (by linarith : (0:Rat) ≤ B2 - B1)) (by norm_num : (0:Rat) ≤ 4)]
      · rw [if_neg hk2, if_neg hk2]
        nlinarith [mul_nonneg (mul_nonneg (mul_nonneg (by linarith [hadj.2] :
            (0:Rat) ≤ 1 - bloomAdjF O image (BloomOptions.mk I T B1 R S CR) k / 255) hcb) hI0)
            (by linarith : (0:Rat) ≤ B2 - B1),
          mul_nonneg (mul_nonneg hcb hI0) (by linarith : (0:Rat) ≤ B2 - B1)]

/-- C6 (amended): in the bloom stage, for every input image and every
parameter set with `0 ≤ intensity ≤ 1` and `0 ≤ shadowCrushStrength ≤ 2`
(the orchestrator only derives parameters in these ranges) and a `Math.pow`
capability that is nonnegative on nonnegative bases, increasing
`bloomStrength` while holding `intensity`, `highlightThreshold`,
`bloomRadius`, `shadowCrushStrength` and `shadowCrushRadius` fixed never
decreases the luminance of any pixel whose highlight mask is positive. -/
theorem c6_bloom_monotonic (O : Oracles) (image : Image)
    (I T R S CR B1 B2 : Rat) (p : Nat)
    (hpow : ∀ x y, 0 ≤ x → 0 ≤ O.powO x y)
    (hI0 : 0 ≤ I) (hI1 : I ≤ 1) (hS0 : 0 ≤ S) (hS2 : S ≤ 2) (hB : B1 ≤ B2)
    (hlen : image.data.length = image.width * image.height * 4)
    (hp : p < image.width * image.height)
    (hhm : 0 < bloomHmF O image (BloomOptions.mk I T B1 R S CR) p) :
    luminanceAt (imageToPixels (applyBloomEffect O image (BloomOptions.mk I T B1 R S CR))) p ≤
    luminanceAt (imageToPixels (applyBloomEffect O image (BloomOptions.mk I T B2 R S CR))) p := by
  have hitp : (imageToPixels image).length = image.data.length := by
    simp [imageToPixels]
  have hblen : ∀ opts : BloomOptions,
      (applyBloomEffectBuf O image opts).length = image.data.length := by
    intro opts
    unfold applyBloomEffectBuf
    simp [imageToPixels]
  have hchan : ∀ (opts : BloomOptions) (c : Nat), c < 4 →
      (imageToPixels (applyBloomEffect O image opts)).getD (4*p+c) 0 =
      byteQ (bloomResultF O image opts (4*p+c)) := by
    intro opts c hc
    have hj : 4*p+c < (applyBloomEffectBuf O image opts).length := by
      rw [hblen]
      omega
    unfold applyBloomEffect
    rw [imageToPixels_pixelsToImage_getD _ _ _ _ hj]
    congr 1
    unfold applyBloomEffectBuf
    rw [rangeMap_getD]
    rw [if_pos (by rw [hitp]; omega : 4*p+c < (imageToPixels image).length)]
    rw [if_pos (by omega : (4*p+c)/4 < image.width * image.height)]
  have e10 := hchan (BloomOptions.mk I T B1 R S CR) 0 (by omega)
  have e11 := hchan (BloomOptions.mk I T B1 R S CR) 1 (by omega)
  have e12 := hchan (BloomOptions.mk I T B1 R S CR) 2 (by omega)
  have e20 := hchan (BloomOptions.mk I T B2 R S CR) 0 (by omega)
  have e21 := hchan (BloomOptions.mk I T B2 R S CR) 1 (by omega)
  have e22 := hchan (BloomOptions.mk I T B2 R S CR) 2 (by omega)
  simp only [Nat.add_zero] at e10 e20
  have hm0 := byteQ_mono (bloomResultF_mono O image I T R S CR B1 B2 (4*p)
    hpow hI0 hI1 hS0 hS2 hB)
  have hm1 := byteQ_mono (bloomResultF_mono O image I T R S CR B1 B2 (4*p+1)
    hpow hI0 hI1 hS0 hS2 hB)
  have hm2 := byteQ_mono (bloomResultF_mono O image I T R S CR B1 B2 (4*p+2)
    hpow hI0 hI1 hS0 hS2 hB)
  unfold luminanceAt
  rw [e10, e11, e12, e20, e21, e22]
  linarith

/-- Counterexample for C6 as stated over every parameter set: with the
bloom stage's `intensity` parameter fixed at `−1` (the claim quantifies
over every parameter set and the code accepts any value), raising
`bloomStrength` from 0 to 1 on an opaque-white pixel whose highlight mask
is 1 lowers the pixel's luminance from 255 to `0.299·183 + 0.587·191 +
0.114·187`: with negative intensity the screen/additive/colour-shift terms
enter negatively.  All blur radii are zero here, so the real code's
`sigma ≤ 0` no-blur path is taken and no blur capability is involved; the
`Math.pow` capability is evaluated only at bases 0 and 1, where `powExact`
agrees with the real `Math.pow`. -/
theorem c6_bloom_monotonic_counterexample :
    0 < bloomHmF Otest imgWhite (BloomOptions.mk (-1) 150 0 0 0 0) 0 ∧
    (0 : Rat) ≤ 1 ∧
    luminanceAt (imageToPixels (applyBloomEffect Otest imgWhite (BloomOptions.mk (-1) 150 1 0 0 0))) 0 <
    luminanceAt (imageToPixels (applyBloomEffect Otest imgWhite (BloomOptions.mk (-1) 150 0 0 0 0))) 0 := by
  have hw : imgWhite.width = 1 := rfl
  have hh : imgWhite.height = 1 := rfl
  have hdata : imageToPixels imgWhite = [255, 255, 255, 255] := by
    simp [imageToPixels, imgWhite, show ((255 : Byte).val : Rat) = 255 from rfl]
  have hbyte255 : ((byteOfRat 255).val : Rat) = 255 := by
    have hv : (byteOfRat 255).val = 255 := by
      show (max 0 (min 255 (jsRound 255))).toNat = 255
      rw [show jsRound 255 = 255 from by norm_num [jsRound]]
      decide
    rw [hv]
    norm_num
  have hhm : ∀ B : Rat, bloomHmF Otest imgWhite (BloomOptions.mk (-1) 150 B 0 0 0) 0 = 1 := by
    intro B
    norm_num [bloomHmF, hdata, luminanceAt, clamp, Otest, powExact]
  have hbp : ∀ B : Rat, bloomPixelsL Otest imgWhite (BloomOptions.mk (-1) 150 B 0 0 0) =
      [255, 255, 255, 255] := by
    intro B
    norm_num [bloomPixelsL, hw, hh, hdata, hhm, List.range_succ]
  have hblur : ∀ B mult : Rat,
      bloomBlurred Otest imgWhite (BloomOptions.mk (-1) 150 B 0 0 0) mult =
      [255, 255, 255, 255] := by
    intro B mult
    norm_num [bloomBlurred, hbp, applyGaussianBlur, pilRadiusToSigma, pixelsToImage,
      imageToPixels, hbyte255, hw, hh]
  have hcb : ∀ (B : Rat) (k : Nat), k < 4 →
      bloomCbF Otest imgWhite (BloomOptions.mk (-1) 150 B 0 0 0) k = 255 := by
    intro B k hk
    interval_cases k <;> norm_num [bloomCbF, hblur]
  have hcrush : ∀ B mult : Rat,
      bloomCrushBlurred Otest imgWhite (BloomOptions.mk (-1) 150 B 0 0 0) mult =
      [255, 255, 255, 255] := by
    intro B mult
    norm_num [bloomCrushBlurred, hhm, applyGaussianBlur, pilRadiusToSigma, pixelsToImage,
      imageToPixels, hbyte255, hw, hh, List.range_succ]
  have hci : ∀ B : Rat, bloomCiF Otest imgWhite (BloomOptions.mk (-1) 150 B 0 0 0) 0 = 1 := by
    intro B
    norm_num [bloomCiF, hcrush]
  have hha : ∀ B : Rat,
      bloomHighlightAmount Otest imgWhite (BloomOptions.mk (-1) 150 B 0 0 0) = 1 := by
    intro B
    norm_num [bloomHighlightAmount, hw, hh, hhm, Finset.sum_range_one]
  have hscf : ∀ B : Rat, bloomScf Otest imgWhite (BloomOptions.mk (-1) 150 B 0 0 0) = 1 := by
    intro B
    norm_num [bloomScf, hha]
  have hadj : ∀ (B : Rat) (k : Nat), k < 3 →
      bloomAdjF Otest imgWhite (BloomOptions.mk (-1) 150 B 0 0 0) k = 255 := by
    intro B k hk
    interval_cases k <;>
      norm_num [bloomAdjF, hdata, luminanceAt, hci, hscf, clamp, Otest, powExact]
  have hres0 : ∀ B : Rat,
      bloomResultF Otest imgWhite (BloomOptions.mk (-1) 150 B 0 0 0) 0 =
        clamp (255 - 63.75 * B - 8 * B) 0 255 := by
    intro B
    rw [bloomResultF]
    norm_num [hadj, hcb, show clamp 1 0 1 = 1 from by norm_num [clamp]]
    congr 1
    ring
  have hres1 : ∀ B : Rat,
      bloomResultF Otest imgWhite (BloomOptions.mk (-1) 150 B 0 0 0) 1 =
        clamp (255 - 63.75 * B) 0 255 := by
    intro B
    rw [bloomResultF]
    norm_num [hadj, hcb, show clamp 1 0 1 = 1 from by norm_num [clamp]]
    congr 1
    ring
  have hres2 : ∀ B : Rat,
      bloomResultF Otest imgWhite (BloomOptions.mk (-1) 150 B 0 0 0) 2 =
        clamp (255 - 63.75 * B - 4 * B) 0 255 := by
    intro B
    rw [bloomResultF]
    norm_num [hadj, hcb, show clamp 1 0 1 = 1 from by norm_num [clamp]]
    congr 1
    ring
  have hlenb : ∀ B : Rat,
      (applyBloomEffectBuf Otest imgWhite (BloomOptions.mk (-1) 150 B 0 0 0)).length = 4 := by
    intro B
    unfold applyBloomEffectBuf
    simp [hdata]
  have hget : ∀ (B : Rat) (c : Nat), c < 3 →
      (imageToPixels (applyBloomEffect Otest imgWhite (BloomOptions.mk (-1) 150 B 0 0 0))).getD c 0 =
      byteQ (bloomResultF Otest imgWhite (BloomOptions.mk (-1) 150 B 0 0 0) c) := by
    intro B c hc
    unfold applyBloomEffect
    rw [imageToPixels_pixelsToImage_getD _ _ _ _ (by rw [hlenb]; omega)]
    congr 1
    unfold applyBloomEffectBuf
    rw [rangeMap_getD]
    rw [if_pos (by rw [show (imageToPixels imgWhite).length = 4 from by rw [hdata]; rfl]; omega :
      c < (imageToPixels imgWhite).length)]
    rw [if_pos (by rw [hw, hh]; omega : c / 4 < imgWhite.width * imgWhite.height)]
  have hL1 : luminanceAt (imageToPixels (applyBloomEffect Otest imgWhite
      (BloomOptions.mk (-1) 150 1 0 0 0))) 0 = 0.299 * 183 + 0.587 * 191 + 0.114 * 187 := by
    unfold luminanceAt
    simp only [Nat.mul_zero, Nat.zero_add]
    rw [hget 1 0 (by omega), hget 1 1 (by omega), hget 1 2 (by omega)]
    rw [hres0 1, hres1 1, hres2 1]
    rw [show clamp (255 - 63.75 * 1 - 8 * 1) 0 255 = 183.25 from by norm_num [clamp]]
    rw [show clamp (255 - 63.75 * 1) 0 255 = 191.25 from by norm_num [clamp]]
    rw [show clamp (255 - 63.75 * 1 - 4 * 1) 0 255 = 187.25 from by norm_num [clamp]]
    rw [byteQ_evalN 183.25 183 (by norm_num [jsRound]) (by norm_num)]
    rw [byteQ_evalN 191.25 191 (by norm_num [jsRound]) (by norm_num)]
    rw [byteQ_evalN 187.25 187 (by norm_num [jsRound]) (by norm_num)]
    norm_num
  have hL0 : luminanceAt (imageToPixels (applyBloomEffect Otest imgWhite
      (BloomOptions.mk (-1) 150 0 0 0 0))) 0 = 255 := by
    unfold luminanceAt
    simp only [Nat.mul_zero, Nat.zero_add]
    rw [hget 0 0 (by omega), hget 0 1 (by omega), hget 0 2 (by omega)]
    rw [hres0 0, hres1 0, hres2 0]
    rw [show clamp (255 - 63.75 * 0 - 8 * 0) 0 255 = 255 from by norm_num [clamp]]
    rw [show clamp (255 - 63.75 * 0) 0 255 = 255 from by norm_num [clamp]]
    rw [show clamp (255 - 63.75 * 0 - 4 * 0) 0 255 = 255 from by norm_num [clamp]]
    rw [byteQ_evalN 255 255 (by norm_num [jsRound]) (by norm_num)]
    norm_num
  refine ⟨?_, by norm_num, ?_⟩
  · rw [hhm 0]
    norm_num
  · rw [hL1, hL0]
    norm_num

/-- Witness for C6's amended theorem on a concrete white pixel at bloom
intensity 1. -/
theorem c6_bloom_monotonic_witness :
    ((∀ x y : Rat, 0 ≤ x → 0 ≤ Otest.powO x y) ∧
     (0 : Rat) ≤ 1 ∧ (1 : Rat) ≤ 1 ∧ (0 : Rat) ≤ 0 ∧ (0 : Rat) ≤ 2 ∧ (0 : Rat) ≤ 1 ∧
     imgWhite.data.length = imgWhite.width * imgWhite.height * 4 ∧
     0 < imgWhite.width * imgWhite.height ∧
     0 < bloomHmF Otest imgWhite (BloomOptions.mk 1 150 0 0 0 0) 0) ∧
    luminanceAt (imageToPixels (applyBloomEffect Otest imgWhite (BloomOptions.mk 1 150 0 0 0 0))) 0 ≤
    luminanceAt (imageToPixels (applyBloomEffect Otest imgWhite (BloomOptions.mk 1 150 1 0 0 0))) 0 := by
  have hpow : ∀ x y : Rat, 0 ≤ x → 0 ≤ Otest.powO x y := by
    intro x y _
    show (0 : Rat) ≤ powExact x y
    unfold powExact
    split_ifs <;> norm_num
  have hhm1 : 0 < bloomHmF Otest imgWhite (BloomOptions.mk 1 150 0 0 0 0) 0 := by
    have hdata : imageToPixels imgWhite = [255, 255, 255, 255] := by
      simp [imageToPixels, imgWhite, show ((255 : Byte).val : Rat) = 255 from rfl]
    norm_num [bloomHmF, hdata, luminanceAt, clamp, Otest, powExact]
  exact ⟨⟨hpow, by norm_num, by norm_num, by norm_num, by norm_num, by norm_num,
      rfl, by norm_num [imgWhite], hhm1⟩,
    c6_bloom_monotonic Otest imgWhite 1 150 0 0 0 0 1 0 hpow (by norm_num) (by norm_num)
      (by norm_num) (by norm_num) (by norm_num) rfl (by norm_num [imgWhite]) hhm1⟩

end Y2K
